import Mathlib

/-!
Verification of the PIR floor-projection system: a shallow embedding of
`pir-server.py` (broadcast server) and `video-client.py` (PIR client /
frame decoder), with theorems settling the specification's claims.

Conventions of the embedding:
* sockets / connections are identified by natural numbers;
* wall-clock times (`time.time()`) are rationals;
* the outcome of a network send to connection `c` is an environment
  function `ok : Nat → Bool` (true = the send succeeds);
* `json.loads` on one line is an environment function
  `String → Option Msg` (`none` = `json.JSONDecodeError`).
-/

namespace PIR

/-! ### Client side: `video-client.py` -/

/-- A decoded wire message, restricted to the fields the client reads.
`pirState` is a `"type": "pir_state"` record whose optional `state` field
mirrors `message.get('state', 0)`; `welcome` is a `"type": "welcome"`
record whose optional `pir_state` field mirrors
`message.get('pir_state', 0)`; `other` is any other well-formed JSON
object (its `type` matches neither branch). -/
inductive Msg : Type where
  | pirState (state : Option Int) : Msg
  | welcome (pirState : Option Int) : Msg
  | other : Msg
deriving DecidableEq, Repr

/-- The mutable client state of `PIRClient` that the decode loop and
`get_motion` touch: `motion_detected`, `last_motion_time` (from
`__init__`, lines 35–36) and the decode loop's local `previous_state`
(line 103). -/
structure ClientState : Type where
  motion_detected : Bool
  last_motion_time : ℚ
  previous_state : Int
deriving DecidableEq, Repr

/-- `PIRClient.__init__` (motion_detected = False, last_motion_time = 0)
together with `_receive_data`'s `previous_state = 0`. -/
def initialClientState : ClientState :=
  { motion_detected := false, last_motion_time := 0, previous_state := 0 }

/-- One iteration of the message dispatch in `PIRClient._receive_data`
(lines 121–142), applied to one parsed line: `none` is a
`json.JSONDecodeError`, silently dropped (line 141–142); a `pir_state`
record runs rising-edge detection (lines 125–134); a `welcome` record
seeds `previous_state` (lines 136–139); any other record is ignored. -/
def processLine (now : ℚ) (s : ClientState) (line : Option Msg) : ClientState :=
  match line with
  | none => s
  | some (.pirState st) =>
      let current_state : Int := st.getD 0
      if current_state = 1 ∧ s.previous_state = 0 then
        { motion_detected := true, last_motion_time := now,
          previous_state := current_state }
      else
        { s with previous_state := current_state }
  | some (.welcome p) => { s with previous_state := p.getD 0 }
  | some .other => s

/-- Whether the rising-edge condition of line 129
(`current_state == 1 and previous_state == 0`) fires on this record. -/
def risingEdgeFires (s : ClientState) (st : Option Int) : Bool :=
  st.getD 0 = 1 ∧ s.previous_state = 0

/-- Run the decode loop over a list of parsed lines, counting how many
times the rising-edge branch (line 129) fires. -/
def runLines (now : ℚ) (s : ClientState) : List (Option Msg) → ClientState × Nat
  | [] => (s, 0)
  | l :: ls =>
      let fired : Nat :=
        match l with
        | some (.pirState st) => if risingEdgeFires s st then 1 else 0
        | _ => 0
      let (s', n) := runLines now (processLine now s l) ls
      (s', fired + n)

/-- `PIRClient.get_motion` (lines 151–158): returns whether a motion edge
is reported now, together with the updated state.  The debounce window
(`SETTINGS['motion_debounce_ms'] / 1000`) is the `debounce` argument. -/
def get_motion (s : ClientState) (now debounce : ℚ) : Bool × ClientState :=
  if s.motion_detected then
    if now - s.last_motion_time > debounce then
      (true, { s with motion_detected := false })
    else (false, s)
  else (false, s)

/-- `PIRClient.find_raspberry_pi` (lines 56–72), after the local subnet
has been determined: probe hosts `.1` … `.254` in order
(`for i in range(1, 255)`) and return the first for which the TCP
connect probe succeeds (`connect_ex == 0`), else `None`.  The probe
outcome is the environment function `probe`. -/
def find_raspberry_pi (probe : Nat → Bool) : Option Nat :=
  (List.range' 1 254).find? probe

/-- Splitting of the receive buffer in `_receive_data` (lines 118–119):
`line, buffer = buffer.split('\n', 1)` when the buffer holds a newline. -/
def takeLine (buf : List Char) : List Char :=
  buf.takeWhile (fun c => c ≠ '\n')

/-- The part of the buffer at and after the first newline. -/
def restAfterLine (buf : List Char) : List Char :=
  buf.dropWhile (fun c => c ≠ '\n')

/-- `if line.strip():` (line 120) — a line is processed only when it has a
non-whitespace character. -/
def lineNonBlank (line : List Char) : Bool :=
  line.any (fun c => !c.isWhitespace)

/-- `dropWhile` never lengthens a list (termination helper). -/
theorem dropWhile_len_le {α : Type} (p : α → Bool) :
    ∀ l : List α, (l.dropWhile p).length ≤ l.length := by
  intro l
  induction l with
  | nil => simp [List.dropWhile]
  | cons a t ih =>
      by_cases h : p a
      · simp [List.dropWhile, h]; omega
      · simp [List.dropWhile, h]

/-- The inner `while '\n' in buffer` loop of `_receive_data`
(lines 118–142): repeatedly split off the first complete line, parse it
with the environment parser `parse` (`json.loads`; `none` on
`JSONDecodeError`) and dispatch it; stop when no newline remains,
returning the final state and the leftover (incomplete) buffer. -/
def processBuffer (parse : List Char → Option Msg) (now : ℚ)
    (s : ClientState) (buf : List Char) : ClientState × List Char :=
  match h : restAfterLine buf with
  | [] => (s, buf)
  | _ :: rest =>
      let line := takeLine buf
      let s' := if lineNonBlank line then processLine now s (parse line) else s
      processBuffer parse now s' rest
termination_by buf.length
decreasing_by
  have hle : (restAfterLine buf).length ≤ buf.length := by
    simpa [restAfterLine] using dropWhile_len_le (fun c => decide (c ≠ '\n')) buf
  simp only [h] at hle
  simp at hle ⊢
  omega

/-! ### Server side: `pir-server.py` -/

/-- One event of the accept path, in the order `handle_client` performs
its actions. -/
inductive SrvEvent : Type where
  | register (c : Nat) : SrvEvent
  | sendWelcome (c : Nat) (pirState : Nat) (ok : Bool) : SrvEvent
deriving DecidableEq, Repr

/-- `handle_client` (lines 67–84): append the connection to the global
`clients` list (line 72), then build the welcome message from the current
`pir_state` and attempt to send it, ignoring a send failure
(lines 74–84).  Returns the new registry and the ordered event trace;
`sendOk` is whether the welcome send succeeds. -/
def handle_client (clients : List Nat) (c : Nat) (pirState : Nat)
    (sendOk : Bool) : List Nat × List SrvEvent :=
  (clients ++ [c], [.register c, .sendWelcome c pirState sendOk])

/-- One tick of the state-change detection in `monitor_sensor`
(lines 95–106): from `(previous_state, motion_count)` and the current
reading, produce the updated pair.  `motion_count` increments only in the
`current_state == 1` branch of a detected change (lines 98–100). -/
def monitor_step (prev cnt reading : Nat) : Nat × Nat :=
  if reading ≠ prev then
    (reading, if reading = 1 then cnt + 1 else cnt)
  else (prev, cnt)

/-- `monitor_sensor`'s loop folded over a whole list of sensor readings,
starting from a given `(previous_state, motion_count)`. -/
def monitor_run (prev cnt : Nat) : List Nat → Nat × Nat
  | [] => (prev, cnt)
  | r :: rs =>
      let p := monitor_step prev cnt r
      monitor_run p.1 p.2 rs

/-- Number of 0→1 ticks in a reading sequence started from state
`prev`. -/
def risingEdges (prev : Nat) : List Nat → Nat
  | [] => 0
  | r :: rs => (if prev = 0 ∧ r = 1 then 1 else 0) + risingEdges r rs

/-- The StateRecord the server builds each tick (lines 112–121),
restricted to the environment-independent fields. -/
structure StateMsg : Type where
  state : Nat
  motion : Bool
  pin : Nat
  motion_count : Nat
  clients_connected : Nat
deriving DecidableEq, Repr

/-- `json.dumps(data) + "\n"` of line 125: a deterministic rendering of
the StateRecord as one newline-terminated frame. -/
def encodeStateMsg (m : StateMsg) : String :=
  "\x7b\"type\": \"pir_state\", \"state\": " ++ toString m.state ++
  ", \"motion\": " ++ (if m.motion then "true" else "false") ++
  ", \"pin\": " ++ toString m.pin ++
  ", \"motion_count\": " ++ toString m.motion_count ++
  ", \"clients_connected\": " ++ toString m.clients_connected ++ "\x7d\n"

/-- The `for client_socket, client_address in clients` loop of
`broadcast_to_clients` (lines 54–59): attempt `send(message)` to every
registered connection in order; a failing connection is appended to
`disconnected_clients`.  Returns `(attempts, delivered, disconnected)`:
every send attempted (with its bytes), the sends that succeeded, and the
connections whose send failed. -/
def broadcastLoop (ok : Nat → Bool) (message : String) :
    List Nat → List (Nat × String) × List (Nat × String) × List Nat
  | [] => ([], [], [])
  | c :: cs =>
      let (a, d, x) := broadcastLoop ok message cs
      ((c, message) :: a,
       if ok c then (c, message) :: d else d,
       if ok c then x else c :: x)

/-- The removal loop of `broadcast_to_clients` (lines 62–65): for each
disconnected connection, if it is still in the registry, remove its first
occurrence (`list.remove`) and close it.  Returns the new registry and
the list of closed connections. -/
def removeDisconnected (clients : List Nat) : List Nat → List Nat × List Nat
  | [] => (clients, [])
  | c :: rest =>
      if c ∈ clients then
        let p := removeDisconnected (clients.erase c) rest
        (p.1, c :: p.2)
      else removeDisconnected clients rest

/-- The outcome of one broadcast (or one server tick): serializations
performed, send attempts made, successful deliveries, connections closed,
and the registry afterwards. -/
structure TickResult : Type where
  serialized : List String
  attempts : List (Nat × String)
  delivered : List (Nat × String)
  closed : List Nat
  registry : List Nat
deriving DecidableEq, Repr

/-- `broadcast_to_clients` (lines 49–65): send `message` to every
registered connection, then prune and close the connections whose send
failed.  The function is total: a send failure is absorbed, never
escalated. -/
def broadcast_to_clients (clients : List Nat) (ok : Nat → Bool)
    (message : String) : TickResult :=
  let (a, d, x) := broadcastLoop ok message clients
  let (reg, cl) := removeDisconnected clients x
  { serialized := [], attempts := a, delivered := d, closed := cl,
    registry := reg }

/-- The send step of one `monitor_sensor` tick (lines 123–126): only if
the registry is non-empty, serialize the StateRecord once and broadcast
the identical bytes to every registered connection. -/
def monitor_tick (clients : List Nat) (ok : Nat → Bool) (data : StateMsg) :
    TickResult :=
  if clients.isEmpty then
    { serialized := [], attempts := [], delivered := [], closed := [],
      registry := clients }
  else
    let message := encodeStateMsg data
    { broadcast_to_clients clients ok message with serialized := [message] }

/-! ### Helper lemmas -/

/-- After any tick, `previous_state` equals the reading just processed. -/
theorem monitor_step_fst (prev cnt r : Nat) : (monitor_step prev cnt r).1 = r := by
  unfold monitor_step
  by_cases h : r = prev <;> simp [h]

/-- One tick never decreases the counter. -/
theorem monitor_step_mono (prev cnt r : Nat) : cnt ≤ (monitor_step prev cnt r).2 := by
  unfold monitor_step
  split
  · simp only []
    split <;> simp
  · simp

/-- The run never decreases the counter. -/
theorem monitor_run_mono (readings : List Nat) :
    ∀ prev cnt, cnt ≤ (monitor_run prev cnt readings).2 := by
  induction readings with
  | nil => intro prev cnt; simp [monitor_run]
  | cons r rs ih =>
      intro prev cnt
      calc cnt ≤ (monitor_step prev cnt r).2 := monitor_step_mono prev cnt r
        _ ≤ (monitor_run (monitor_step prev cnt r).1 (monitor_step prev cnt r).2 rs).2 :=
            ih _ _
        _ = (monitor_run prev cnt (r :: rs)).2 := rfl

/-- Over binary readings the run counts exactly the 0→1 ticks. -/
theorem monitor_run_count (readings : List Nat) :
    ∀ prev cnt, (∀ x ∈ readings, x = 0 ∨ x = 1) → (prev = 0 ∨ prev = 1) →
      (monitor_run prev cnt readings).2 = cnt + risingEdges prev readings := by
  induction readings with
  | nil => intro prev cnt _ _; simp [monitor_run, risingEdges]
  | cons r rs ih =>
      intro prev cnt hall hprev
      have hr : r = 0 ∨ r = 1 := hall r (by simp)
      have hrs : ∀ x ∈ rs, x = 0 ∨ x = 1 := fun x hx => hall x (by simp [hx])
      have hstep : (monitor_step prev cnt r).2 =
          cnt + (if prev = 0 ∧ r = 1 then 1 else 0) := by
        rcases hprev with h | h <;> rcases hr with h1 | h1 <;>
          subst h <;> subst h1 <;> simp [monitor_step]
      have : monitor_run prev cnt (r :: rs) =
          monitor_run (monitor_step prev cnt r).1 (monitor_step prev cnt r).2 rs := rfl
      rw [this, monitor_step_fst, ih r _ hrs hr, hstep, risingEdges]
      omega

/-- Every registered connection gets one send attempt carrying the
broadcast bytes. -/
theorem broadcastLoop_attempts (ok : Nat → Bool) (msg : String) :
    ∀ cs : List Nat, (broadcastLoop ok msg cs).1 = cs.map (fun c => (c, msg)) := by
  intro cs
  induction cs with
  | nil => rfl
  | cons c cs ih => simp [broadcastLoop, ih]

/-- The successful sends are exactly the connections whose send
succeeds. -/
theorem broadcastLoop_delivered (ok : Nat → Bool) (msg : String) :
    ∀ cs : List Nat,
      (broadcastLoop ok msg cs).2.1 = (cs.filter ok).map (fun c => (c, msg)) := by
  intro cs
  induction cs with
  | nil => rfl
  | cons c cs ih =>
      by_cases h : ok c <;> simp [broadcastLoop, ih, List.filter, h]

/-- The collected disconnected list is exactly the connections whose
send fails, in registry order. -/
theorem broadcastLoop_disconnected (ok : Nat → Bool) (msg : String) :
    ∀ cs : List Nat,
      (broadcastLoop ok msg cs).2.2 = cs.filter (fun c => !ok c) := by
  intro cs
  induction cs with
  | nil => rfl
  | cons c cs ih =>
      by_cases h : ok c <;> simp [broadcastLoop, ih, List.filter, h]

/-- Removing a batch that does not contain `c` leaves `c` registered and
otherwise acts on the tail. -/
theorem removeDisconnected_notMem (c : Nat) :
    ∀ (d cs : List Nat), c ∉ d →
      removeDisconnected (c :: cs) d =
        ((removeDisconnected cs d).1.cons c, (removeDisconnected cs d).2) := by
  intro d
  induction d with
  | nil => intro cs _; rfl
  | cons x rest ih =>
      intro cs hc
      have hxc : x ≠ c := fun h => hc (by simp [h])
      have hcrest : c ∉ rest := fun h => hc (by simp [h])
      by_cases hx : x ∈ cs
      · have hmem : x ∈ c :: cs := by simp [hx]
        have herase : (c :: cs).erase x = c :: cs.erase x :=
          List.erase_cons_tail (by simp; omega)
        simp [removeDisconnected, hmem, hx, herase, ih (cs.erase x) hcrest]
      · have hmem : x ∉ c :: cs := by simp [hxc, hx]
        simp [removeDisconnected, hmem, hx, ih cs hcrest]

/-- On a duplicate-free registry, pruning the failed connections removes
exactly them (and closes exactly them), leaving the survivors in
order. -/
theorem removeDisconnected_filter (q : Nat → Bool) :
    ∀ cs : List Nat, cs.Nodup →
      removeDisconnected cs (cs.filter q) =
        (cs.filter (fun c => !q c), cs.filter q) := by
  intro cs
  induction cs with
  | nil => intro _; rfl
  | cons c cs ih =>
      intro hnd
      have hcn : c ∉ cs := (List.nodup_cons.mp hnd).1
      have hnd' : cs.Nodup := (List.nodup_cons.mp hnd).2
      by_cases hq : q c
      · have : (c :: cs).filter q = c :: cs.filter q := by simp [List.filter, hq]
        rw [this]
        have hmem : c ∈ c :: cs := by simp
        have herase : (c :: cs).erase c = cs := List.erase_cons_head c cs
        simp [removeDisconnected, hmem, herase, ih hnd', List.filter, hq]
      · have hfq : (c :: cs).filter q = cs.filter q := by simp [List.filter, hq]
        have hcf : c ∉ cs.filter q := fun h => hcn (List.mem_of_mem_filter h)
        rw [hfq, removeDisconnected_notMem c (cs.filter q) cs hcf, ih hnd']
        simp [List.filter, hq]

/-- `find?` over `range' s n` returns a satisfying element within the
range such that every earlier element of the range fails the
predicate. -/
theorem find_range'_first :
    ∀ (n s : Nat) (p : Nat → Bool) (i : Nat),
      (List.range' s n).find? p = some i →
      p i = true ∧ s ≤ i ∧ i < s + n ∧ ∀ j, s ≤ j → j < i → p j = false := by
  intro n
  induction n with
  | zero => intro s p i h; simp [List.range'] at h
  | succ m ih =>
      intro s p i h
      rw [List.range'_succ] at h
      by_cases hp : p s
      · rw [List.find?_cons_of_pos _ hp] at h
        have hi : s = i := by simpa using h
        subst hi
        exact ⟨hp, Nat.le_refl s, by omega, fun j h1 h2 => by omega⟩
      · rw [List.find?_cons_of_neg _ hp] at h
        obtain ⟨h1, h2, h3, h4⟩ := ih (s + 1) p i h
        refine ⟨h1, by omega, by omega, ?_⟩
        intro j hj1 hj2
        rcases Nat.lt_or_ge j (s + 1) with hj | hj
        · have : j = s := by omega
          subst this
          simpa using hp
        · exact h4 j hj hj2

/-- Splitting a buffer that starts with a newline-free line: the part at
and after the first newline. -/
theorem restAfterLine_append (line rest : List Char) (h : '\n' ∉ line) :
    restAfterLine (line ++ '\n' :: rest) = '\n' :: rest := by
  unfold restAfterLine
  induction line with
  | nil => simp [List.dropWhile]
  | cons c t ih =>
      have hc : c ≠ '\n' := fun hcc => h (by simp [hcc])
      have ht : '\n' ∉ t := fun htt => h (by simp [htt])
      simpa [List.dropWhile, hc] using ih ht

/-- Splitting a buffer that starts with a newline-free line: the
extracted line. -/
theorem takeLine_append (line rest : List Char) (h : '\n' ∉ line) :
    takeLine (line ++ '\n' :: rest) = line := by
  unfold takeLine
  induction line with
  | nil => simp [List.takeWhile]
  | cons c t ih =>
      have hc : c ≠ '\n' := fun hcc => h (by simp [hcc])
      have ht : '\n' ∉ t := fun htt => h (by simp [htt])
      simpa [List.takeWhile, hc] using ih ht

/-- One iteration of the buffer loop: a complete leading line is split
off, dispatched (when non-blank), and the loop continues on the
remainder of the buffer. -/
theorem processBuffer_step (parse : List Char → Option Msg) (now : ℚ)
    (s : ClientState) (line rest : List Char) (hline : '\n' ∉ line) :
    processBuffer parse now s (line ++ '\n' :: rest) =
      processBuffer parse now
        (if lineNonBlank line then processLine now s (parse line) else s)
        rest := by
  have hrest := restAfterLine_append line rest hline
  have htake := takeLine_append line rest hline
  rw [processBuffer]
  split
  · next heq => rw [hrest] at heq; cases heq
  · next x t heq =>
      rw [hrest] at heq
      cases heq
      rw [htake]

/-! ### Claims -/

/-- C1 (counterexample): an accepted connection whose welcome send fails
is nevertheless present in the registry after the accept step, and the
event trace registers the connection before the welcome send — refuting
both the claimed send-then-register order and the claimed discard of a
connection that fails the welcome send. -/
theorem claim_C1_counterexample :
    (handle_client [] 0 5 false).1 = [0] ∧
    (handle_client [] 0 5 false).2 =
      [SrvEvent.register 0, SrvEvent.sendWelcome 0 5 false] :=
  ⟨rfl, rfl⟩

/-- C1 (amended): for every accepted connection, the server first
registers the connection in the client registry and only then sends the
WelcomeRecord built from the current sensor state; a connection whose
welcome send fails remains registered after the accept step (the failure
is ignored; dead connections are pruned later by the broadcast path). -/
theorem claim_C1_register_then_welcome (clients : List Nat) (c pirState : Nat)
    (sendOk : Bool) :
    (handle_client clients c pirState sendOk).1 = clients ++ [c] ∧
    (handle_client clients c pirState sendOk).2 =
      [SrvEvent.register c, SrvEvent.sendWelcome c pirState sendOk] ∧
    c ∈ (handle_client clients c pirState false).1 := by
  refine ⟨rfl, rfl, ?_⟩
  simp [handle_client]

/-- C2: starting from previous state 0, over any sequence of binary
sensor readings the edge counter increments exactly once on each tick
whose previous reading was 0 and current reading is 1 (and on no other
tick), so the final count is the initial count plus the number of 0→1
ticks, and the counter is monotonically non-decreasing. -/
theorem claim_C2_edge_count (prev r cnt : Nat) (readings : List Nat)
    (hp : prev = 0 ∨ prev = 1) (hr : r = 0 ∨ r = 1)
    (hall : ∀ x ∈ readings, x = 0 ∨ x = 1) :
    (monitor_step prev cnt r).2 = cnt + (if prev = 0 ∧ r = 1 then 1 else 0) ∧
    (monitor_run 0 cnt readings).2 = cnt + risingEdges 0 readings ∧
    cnt ≤ (monitor_run 0 cnt readings).2 := by
  refine ⟨?_, monitor_run_count readings 0 cnt hall (Or.inl rfl),
    monitor_run_mono readings 0 cnt⟩
  rcases hp with h | h <;> rcases hr with h1 | h1 <;>
    subst h <;> subst h1 <;> simp [monitor_step]

/-- C2 witness: a concrete binary reading sequence. -/
theorem claim_C2_edge_count_witness :
    (monitor_step 0 0 1).2 = 0 + (if (0 : Nat) = 0 ∧ (1 : Nat) = 1 then 1 else 0) ∧
    (monitor_run 0 0 [0, 0, 1, 1, 0, 1]).2 = 0 + risingEdges 0 [0, 0, 1, 1, 0, 1] ∧
    0 ≤ (monitor_run 0 0 [0, 0, 1, 1, 0, 1]).2 :=
  claim_C2_edge_count 0 1 0 [0, 0, 1, 1, 0, 1] (Or.inl rfl) (Or.inr rfl) (by decide)

/-- C6: on a tick with a non-empty registry the StateRecord is serialized
exactly once and the identical bytes are attempted to every registered
connection; on a tick with an empty registry nothing is serialized and
nothing is sent. -/
theorem claim_C6_fanout (clients : List Nat) (ok : Nat → Bool) (data : StateMsg) :
    (clients ≠ [] →
      (monitor_tick clients ok data).serialized = [encodeStateMsg data] ∧
      (monitor_tick clients ok data).attempts =
        clients.map (fun c => (c, encodeStateMsg data))) ∧
    (clients = [] →
      (monitor_tick clients ok data).serialized = [] ∧
      (monitor_tick clients ok data).attempts = []) := by
  constructor
  · intro h
    have hne : ¬clients.isEmpty := by simp [List.isEmpty_iff, h]
    simp [monitor_tick, hne, broadcast_to_clients, broadcastLoop_attempts]
  · intro h
    subst h
    simp [monitor_tick]

/-- C6 witness: two registered connections, one empty registry. -/
theorem claim_C6_fanout_witness :
    (monitor_tick [1, 2] (fun _ => true) ⟨1, true, 24, 3, 2⟩).serialized =
      [encodeStateMsg ⟨1, true, 24, 3, 2⟩] ∧
    (monitor_tick [1, 2] (fun _ => true) ⟨1, true, 24, 3, 2⟩).attempts =
      [1, 2].map (fun c => (c, encodeStateMsg ⟨1, true, 24, 3, 2⟩)) :=
  (claim_C6_fanout [1, 2] (fun _ => true) ⟨1, true, 24, 3, 2⟩).1 (by decide)

/-- C7: on a duplicate-free registry, a broadcast removes exactly the
connections whose write fails and closes exactly them; every other
registered connection stays in the registry (in order) and its delivery
of the tick's bytes succeeds; every registered connection was attempted
with the same bytes; the broadcast is a total function (the failure is
absorbed, not escalated). -/
theorem claim_C7_write_failure (clients : List Nat) (ok : Nat → Bool)
    (msg : String) (hnd : clients.Nodup) :
    (broadcast_to_clients clients ok msg).registry = clients.filter ok ∧
    (broadcast_to_clients clients ok msg).closed =
      clients.filter (fun c => !ok c) ∧
    (broadcast_to_clients clients ok msg).delivered =
      (clients.filter ok).map (fun c => (c, msg)) ∧
    (broadcast_to_clients clients ok msg).attempts =
      clients.map (fun c => (c, msg)) := by
  have hloop := broadcastLoop_disconnected ok msg clients
  have hrem := removeDisconnected_filter (fun c => !ok c) clients hnd
  have hfilter : clients.filter (fun c => !(!ok c)) = clients.filter ok := by
    simp
  constructor
  · simp [broadcast_to_clients, hloop, hrem, hfilter]
  constructor
  · simp [broadcast_to_clients, hloop, hrem]
  constructor
  · simp [broadcast_to_clients, broadcastLoop_delivered]
  · simp [broadcast_to_clients, broadcastLoop_attempts]

/-- C7 witness: three registered clients, the write to client 2 fails;
only client 2 is removed and closed, clients 1 and 3 still receive the
bytes. -/
theorem claim_C7_write_failure_witness :
    (broadcast_to_clients [1, 2, 3] (fun c => c ≠ 2) "tick").registry =
      [1, 2, 3].filter (fun c => c ≠ 2) ∧
    (broadcast_to_clients [1, 2, 3] (fun c => c ≠ 2) "tick").closed =
      [1, 2, 3].filter (fun c => !(c ≠ 2 : Bool)) ∧
    (broadcast_to_clients [1, 2, 3] (fun c => c ≠ 2) "tick").delivered =
      ([1, 2, 3].filter (fun c => c ≠ 2)).map (fun c => (c, "tick")) ∧
    (broadcast_to_clients [1, 2, 3] (fun c => c ≠ 2) "tick").attempts =
      [1, 2, 3].map (fun c => (c, "tick")) :=
  claim_C7_write_failure [1, 2, 3] (fun c => c ≠ 2) "tick" (by decide)

/-- C3: `get_motion` returns true iff the motion flag is set and the time
since the recorded edge strictly exceeds the debounce window; a true
return clears the flag in the same operation, a false return leaves the
state untouched; hence a second immediately successive call after a true
return yields false — the edge is consumed exactly once. -/
theorem claim_C3_get_motion (s : ClientState) (now now2 debounce : ℚ) :
    ((get_motion s now debounce).1 = true ↔
      s.motion_detected = true ∧ now - s.last_motion_time > debounce) ∧
    ((get_motion s now debounce).1 = true →
      (get_motion s now debounce).2.motion_detected = false) ∧
    ((get_motion s now debounce).1 = false → (get_motion s now debounce).2 = s) ∧
    ((get_motion s now debounce).1 = true →
      (get_motion (get_motion s now debounce).2 now2 debounce).1 = false) := by
  unfold get_motion
  by_cases hm : s.motion_detected <;>
    by_cases ht : now - s.last_motion_time > debounce <;>
      simp [hm, ht, get_motion]

/-- C3 witness: one edge at time 0, polled at time 1 with window 1/2:
true, flag cleared, then false on the immediate second poll. -/
theorem claim_C3_get_motion_witness :
    (get_motion ⟨true, 0, 1⟩ 1 (1 / 2)).1 = true ∧
    (get_motion ⟨true, 0, 1⟩ 1 (1 / 2)).2.motion_detected = false ∧
    (get_motion (get_motion ⟨true, 0, 1⟩ 1 (1 / 2)).2 1 (1 / 2)).1 = false := by
  have h := claim_C3_get_motion ⟨true, 0, 1⟩ 1 1 (1 / 2)
  have h1 : (get_motion ⟨true, 0, 1⟩ 1 (1 / 2)).1 = true :=
    h.1.mpr ⟨rfl, by norm_num⟩
  exact ⟨h1, h.2.1 h1, h.2.2.2 h1⟩

/-- C4: a StateRecord sets the motion flag together with its timestamp
exactly when the previous state is 0 and the record's state is 1,
otherwise it leaves the flag and timestamp untouched; the previous state
is updated to the record's state in every case; and the state sequence
0,0,1,1,0,1 processed from the initial decoder state fires exactly two
rising edges. -/
theorem claim_C4_state_record_edges (now : ℚ) (s : ClientState) (st : Option Int) :
    (risingEdgeFires s st = true →
      processLine now s (some (Msg.pirState st)) =
        { motion_detected := true, last_motion_time := now,
          previous_state := st.getD 0 }) ∧
    (risingEdgeFires s st = false →
      processLine now s (some (Msg.pirState st)) =
        { s with previous_state := st.getD 0 }) ∧
    (processLine now s (some (Msg.pirState st))).previous_state = st.getD 0 ∧
    (runLines now initialClientState
      (([0, 0, 1, 1, 0, 1] : List Int).map
        (fun n => some (Msg.pirState (some n))))).2 = 2 := by
  refine ⟨?_, ?_, ?_, by rfl⟩
  · intro hfire
    unfold risingEdgeFires at hfire
    rw [decide_eq_true_eq] at hfire
    simp [processLine, hfire]
  · intro hfire
    unfold risingEdgeFires at hfire
    rw [decide_eq_false_iff_not] at hfire
    simp [processLine, hfire]
  · by_cases hfire : st.getD 0 = 1 ∧ s.previous_state = 0 <;>
      simp [processLine, hfire]

/-- C4 witness: a 0→1 record from the initial state fires the edge. -/
theorem claim_C4_state_record_edges_witness :
    processLine 7 initialClientState (some (Msg.pirState (some 1))) =
      { motion_detected := true, last_motion_time := 7, previous_state := 1 } :=
  (claim_C4_state_record_edges 7 initialClientState (some 1)).1 (by decide)

/-- C5: a WelcomeRecord only seeds the decoder's previous state from its
embedded `pir_state` and changes nothing else; consequently a
WelcomeRecord with state 1 followed by a StateRecord with state 1 fires
no edge and leaves the motion flag clear. -/
theorem claim_C5_welcome_seed (now : ℚ) (s : ClientState) (p : Option Int) :
    processLine now s (some (Msg.welcome p)) =
      { s with previous_state := p.getD 0 } ∧
    (runLines now initialClientState
      [some (Msg.welcome (some 1)), some (Msg.pirState (some 1))]).1 =
      { initialClientState with previous_state := 1 } ∧
    (runLines now initialClientState
      [some (Msg.welcome (some 1)), some (Msg.pirState (some 1))]).2 = 0 := by
  refine ⟨rfl, ?_, rfl⟩
  rfl

/-- C10: a well-formed `pir_state` record lacking the `state` field is
read as state 0: it sets the previous state to 0 and leaves the motion
flag and timestamp untouched; consequently a following record with
state 1 fires an edge even when no record in the stream ever carried
state 0 — witnessed by the stream welcome(1), state(1), state(missing),
state(1), which fires exactly one edge. -/
theorem claim_C10_missing_state (now : ℚ) (s : ClientState) :
    processLine now s (some (Msg.pirState none)) =
      { s with previous_state := 0 } ∧
    (s.motion_detected = false →
      (processLine now s (some (Msg.pirState none))).motion_detected = false) ∧
    (processLine now (processLine now s (some (Msg.pirState none)))
      (some (Msg.pirState (some 1)))).motion_detected = true ∧
    (runLines now initialClientState
      [some (Msg.welcome (some 1)), some (Msg.pirState (some 1)),
       some (Msg.pirState none), some (Msg.pirState (some 1))]).2 = 1 := by
  have h0 : ¬((0 : Int) = 1 ∧ s.previous_state = 0) := fun h => by
    exact absurd h.1 (by decide)
  refine ⟨?_, ?_, ?_, by rfl⟩
  · simp [processLine, h0]
  · intro hm
    simp [processLine, h0, hm]
  · simp [processLine, h0]

/-- C10 witness: from a state whose previous state is 1 and whose flag is
clear, a missing-`state` record keeps the flag clear. -/
theorem claim_C10_missing_state_witness :
    (processLine 0 ⟨false, 0, 1⟩ (some (Msg.pirState none))).motion_detected =
      false :=
  (claim_C10_missing_state 0 ⟨false, 0, 1⟩).2.1 rfl

/-- C9: after the local subnet is determined, discovery probes hosts
`.1` … `.254` in ascending order and returns the first host whose TCP
connect probe succeeds — every earlier host in the range failed its
probe — and it returns `none` exactly when every host in the range fails
its probe. -/
theorem claim_C9_discovery (probe : Nat → Bool) :
    (∀ i, find_raspberry_pi probe = some i →
      probe i = true ∧ 1 ≤ i ∧ i ≤ 254 ∧
        ∀ j, 1 ≤ j → j < i → probe j = false) ∧
    (find_raspberry_pi probe = none ↔
      ∀ i, 1 ≤ i → i ≤ 254 → probe i = false) := by
  constructor
  · intro i h
    obtain ⟨h1, h2, h3, h4⟩ := find_range'_first 254 1 probe i h
    exact ⟨h1, h2, by omega, h4⟩
  · unfold find_raspberry_pi
    rw [List.find?_eq_none]
    constructor
    · intro h i h1 h2
      have hmem : i ∈ List.range' 1 254 := by
        rw [List.mem_range']
        exact ⟨i - 1, by omega, by omega⟩
      simpa using h i hmem
    · intro h x hx
      rw [List.mem_range'] at hx
      obtain ⟨k, hk, hxe⟩ := hx
      have hx1 : 1 ≤ x := by omega
      have hx2 : x ≤ 254 := by omega
      simp [h x hx1 hx2]

/-- C9 witness: with host 7 the only responder, discovery returns 7,
every lower host probed false, and the all-fail probe returns none. -/
theorem claim_C9_discovery_witness :
    ((fun i => decide (i = 7)) 7 = true ∧ 1 ≤ 7 ∧ 7 ≤ 254 ∧
      ∀ j, 1 ≤ j → j < 7 → (fun i => decide (i = 7)) j = false) ∧
    (find_raspberry_pi (fun _ => false) = none ↔
      ∀ i, 1 ≤ i → i ≤ 254 → (fun _ => false) i = false) :=
  ⟨(claim_C9_discovery (fun i => decide (i = 7))).1 7 (by decide),
   (claim_C9_discovery (fun _ => false)).2⟩

/-- C8: a frame that fails to parse is discarded silently: processing a
buffer that starts with the malformed frame `"not-json\n"` yields
exactly the state and leftover buffer obtained by processing the rest of
the stream alone — in particular a valid StateRecord following the
malformed frame is parsed and processed as if the malformed frame were
absent. -/
theorem claim_C8_malformed_frame (parse : List Char → Option Msg) (now : ℚ)
    (s : ClientState) (rest : List Char)
    (hparse : parse "not-json".data = none) :
    processBuffer parse now s ("not-json\n".data ++ rest) =
      processBuffer parse now s rest := by
  have hsplit : "not-json\n".data ++ rest = "not-json".data ++ '\n' :: rest := by
    have h1 : "not-json\n".data = "not-json".data ++ ['\n'] := rfl
    rw [h1, List.append_assoc]
    rfl
  rw [hsplit, processBuffer_step parse now s "not-json".data rest (by decide)]
  have hnb : lineNonBlank "not-json".data = true := by decide
  rw [hnb, if_pos rfl, hparse]
  rfl

/-- C8 witness: with a parser recognizing exactly the line `"rec"` as a
state-1 StateRecord, the stream `"not-json\nrec\n"` decodes to the same
state as the stream `"rec\n"` alone. -/
theorem claim_C8_malformed_frame_witness :
    processBuffer
      (fun l => if l = "rec".data then some (Msg.pirState (some 1)) else none)
      2 initialClientState ("not-json\n".data ++ "rec\n".data) =
    processBuffer
      (fun l => if l = "rec".data then some (Msg.pirState (some 1)) else none)
      2 initialClientState "rec\n".data :=
  claim_C8_malformed_frame
    (fun l => if l = "rec".data then some (Msg.pirState (some 1)) else none)
    2 initialClientState "rec\n".data (by decide)

end PIR
